import Mathlib

/-
Verification of the invoice rendering service (src/api.py) against its
specification.  The Python code is shallowly embedded: python-docx documents
become explicit structures of paragraphs, runs and tables; Python numbers
(ints and floats coming from JSON) are modelled as rationals; network and
filesystem effects are modelled by an explicit environment threaded through
the functions that use them.  Rational tests and arithmetic are written on
the numerator/denominator representation (e.g. amount == 0 iff amount.num = 0,
amount == int(amount) iff amount.den = 1) so that every definition evaluates
inside the kernel.
-/

namespace Api

/-! Decimal digit rendering, modelling Python's str()/format on integers. -/

/-- One decimal digit character, for digits 0 to 9. -/
def digitChar (d : ℕ) : Char :=
  if d = 0 then '0' else if d = 1 then '1' else if d = 2 then '2'
  else if d = 3 then '3' else if d = 4 then '4' else if d = 5 then '5'
  else if d = 6 then '6' else if d = 7 then '7' else if d = 8 then '8' else '9'

/-- Digits of n in base 10, most significant first, via fuel-bounded recursion
(the fuel n+1 always suffices since the argument is divided by 10 each step). -/
def decimalDigitsAux : ℕ → ℕ → List Char
  | 0, _ => []
  | fuel + 1, n => if n = 0 then [] else decimalDigitsAux fuel (n / 10) ++ [digitChar (n % 10)]

/-- Decimal digit string of a natural number, as Python str() renders it. -/
def decimalDigits (n : ℕ) : List Char :=
  if n = 0 then ['0'] else decimalDigitsAux (n + 1) n

/-- Insert a comma after every three characters of a reversed digit list:
the helper behind Python's format(n, ",") thousands grouping. -/
def groupRev : List Char → List Char
  | a :: b :: c :: d :: rest => a :: b :: c :: ',' :: groupRev (d :: rest)
  | l => l

/-- Thousands-grouped decimal rendering of a natural number,
as Python's f-string format spec "," produces. -/
def commaGroup (n : ℕ) : String :=
  String.mk ((groupRev (decimalDigits n).reverse).reverse)

/-- Thousands-grouped rendering of an integer: f"{i:,}". -/
def intToComma (i : ℤ) : String :=
  (if i < 0 then "-" else "") ++ commaGroup i.natAbs

/-- Remove every comma from a string (used to state that grouping only
inserts separators and preserves the digits). -/
def stripCommas (s : String) : String :=
  String.mk (s.data.filter (fun ch => ch != ','))

/-- Two decimal digits with a leading zero when needed (the fractional part
of a fixed-point rendering). -/
def twoDigitPad (m : ℕ) : List Char :=
  if m < 10 then '0' :: decimalDigits m else decimalDigits m

/-- f"{a:,.2f}": round a to two decimal places, group the integer part by
thousands, always print two fractional digits, keep the sign of a.
round(a*100) is computed as floor(a*100 + 1/2) = (200*num + den) fdiv (2*den)
on the reduced fraction (Python rounds the underlying binary float; amounts
are modelled as exact rationals and rounded to cents). -/
def twoDecComma (a : ℚ) : String :=
  let c : ℤ := Int.fdiv (200 * a.num + (a.den : ℤ)) (2 * (a.den : ℤ))
  (if a.num < 0 then "-" else "") ++ commaGroup (c.natAbs / 100) ++ "." ++
    String.mk (twoDigitPad (c.natAbs % 100))

/-- src/api.py format_currency (lines 26-32): empty string for zero, grouped
integer form f"Rp {int(amount):,}" when amount == int(amount), and grouped
two-decimal form f"Rp {amount:,.2f}" otherwise.  A rational is zero iff its
numerator is zero, and equals its own int() truncation (Int.tdiv truncates
toward zero, like Python int()) iff its denominator is one. -/
def format_currency (amount : ℚ) : String :=
  if amount.num = 0 then ""
  else if amount.den = 1 then "Rp " ++ intToComma (amount.num.tdiv (amount.den : ℤ))
  else "Rp " ++ twoDecComma amount

example : format_currency (mkRat 0 1) = "" := by decide
example : format_currency (mkRat 1000 1) = "Rp 1,000" := by decide
example : format_currency (mkRat 2001 2) = "Rp 1,000.50" := by decide
example : format_currency (mkRat 500000 1) = "Rp 500,000" := by decide
example : format_currency (mkRat (-1234) 1) = "Rp -1,234" := by decide
example : format_currency (mkRat (-1) 2) = "Rp -0.50" := by decide

/-! Python string primitives used by the placeholder engine. -/

/-- Is k a prefix-at-some-position substring of the second list?
Models Python's `k in s` test on strings (true for the empty k). -/
def subChars (k : List Char) : List Char → Bool
  | [] => k.isEmpty
  | c :: rest => k.isPrefixOf (c :: rest) || subChars k rest

/-- Python's `key in text`: substring containment. -/
def strContains (s k : String) : Bool := subChars k.data s.data

/-- One pass of Python str.replace on character lists: scan left to right,
on a match emit the replacement and continue after the matched pattern
(the replacement itself is not rescanned).  Fuel-bounded; fuel equal to the
list length suffices for a non-empty pattern since every step consumes at
least one character. -/
def replaceChars (pat rep : List Char) : ℕ → List Char → List Char
  | 0, l => l
  | _fuel + 1, [] => []
  | fuel + 1, c :: rest =>
    if pat.isPrefixOf (c :: rest) then rep ++ replaceChars pat rep fuel (rest.drop (pat.length - 1))
    else c :: replaceChars pat rep fuel rest

/-- Python str.replace(pat, rep): replaces every non-overlapping occurrence
left to right.  For an empty pattern Python interleaves rep before every
character and at the end. -/
def pyReplace (s pat rep : String) : String :=
  if pat.data.isEmpty then
    String.mk (rep.data ++ (s.data.map (fun c => c :: rep.data)).flatten)
  else String.mk (replaceChars pat.data rep.data s.data.length s.data)

example : pyReplace "aaa" "aa" "b" = "ba" := by decide
example : pyReplace "x [A] y [A]" "[A]" "Z" = "x Z y Z" := by decide
example : pyReplace "abc" "" "-" = "-a-b-c-" := by decide
example : strContains "hello" "" = true := by decide
example : strContains "hello" "ell" = true := by decide
example : strContains "hello" "xy" = false := by decide

/-! The document model: a python-docx Document restricted to the features
api.py touches (runs with font name/size/color/east-asian font and an
optional anchored drawing, paragraphs with alignment, cells with shading and
border markup, tables with a fixed column grid). -/

/-- Paragraph alignment values used by the code (WD_ALIGN_PARAGRAPH). -/
inductive Align where
  | left
  | right
  | center
deriving DecidableEq

/-- An anchored floating image overlay: the data of the <wp:anchor> drawing
that add_paid_stamp_and_signature injects (EMU offsets and extent,
z-order relativeHeight, docPr id and name). -/
structure Overlay where
  posH : ℤ
  posV : ℤ
  cx : ℤ
  cy : ℤ
  relativeHeight : ℕ
  docPrId : ℕ
  docPrName : String
deriving DecidableEq

/-- A text run: text plus direct formatting (None = inherited) and an
optional anchored drawing. -/
structure Run where
  text : String
  fontName : Option String := none
  fontSize : Option ℕ := none
  fontColor : Option ℕ := none
  eastAsiaFont : Option String := none
  drawing : Option Overlay := none
deriving DecidableEq

/-- A paragraph: runs plus an optional alignment (paragraph property). -/
structure Paragraph where
  runs : List Run
  alignment : Option Align := none
deriving DecidableEq

/-- A table cell: its paragraphs plus accumulated tcPr markup (shading
elements and border elements are appended by the styling helpers, mirroring
the XML appends in api.py). -/
structure Cell where
  paragraphs : List Paragraph
  shadings : List String := []
  borders : List (String × String × ℕ) := []
deriving DecidableEq

/-- A table row. -/
structure Row where
  cells : List Cell
deriving DecidableEq

/-- A table: rows over a fixed column grid (add_row creates one cell per
grid column). -/
structure Table where
  rows : List Row
  gridCols : ℕ
deriving DecidableEq

/-- A document: body paragraphs and tables. -/
structure Doc where
  paragraphs : List Paragraph
  tables : List Table
deriving DecidableEq

/-- paragraph.text: concatenation of the run texts. -/
def paraText (p : Paragraph) : String := String.join (p.runs.map (fun r => r.text))

/-- Setting paragraph.text: python-docx clears the runs and adds a single
run holding the new text; paragraph properties (alignment) survive. -/
def setParaText (p : Paragraph) (s : String) : Paragraph :=
  { p with runs := [{ text := s }] }

/-- cell.text: the paragraph texts joined by newlines. -/
def cellText (c : Cell) : String :=
  String.intercalate "\n" (c.paragraphs.map paraText)

/-- Setting cell.text: python-docx clears the cell content and creates a
single fresh paragraph with a single run; tcPr markup (shading, borders)
survives, paragraph-level alignment does not. -/
def setCellText (c : Cell) (s : String) : Cell :=
  { c with paragraphs := [{ runs := [{ text := s }] }] }

/-- src/api.py replace_placeholders, paragraph loop body (lines 67-70):
fold the replacement pairs in order; each key found in the current text
rewrites the whole paragraph text. -/
def replacePara (reps : List (String × String)) (p : Paragraph) : Paragraph :=
  reps.foldl
    (fun q kv =>
      if strContains (paraText q) kv.1 then setParaText q (pyReplace (paraText q) kv.1 kv.2)
      else q)
    p

/-- src/api.py replace_placeholders, cell loop body (lines 71-76). -/
def replaceCell (reps : List (String × String)) (c : Cell) : Cell :=
  reps.foldl
    (fun d kv =>
      if strContains (cellText d) kv.1 then setCellText d (pyReplace (cellText d) kv.1 kv.2)
      else d)
    c

/-- src/api.py replace_placeholders (lines 66-77): apply the replacement
map to every body paragraph and to every cell of every table.  The Python
dict iterates in insertion order, modelled by the list order. -/
def replace_placeholders (doc : Doc) (reps : List (String × String)) : Doc :=
  { paragraphs := doc.paragraphs.map (replacePara reps),
    tables := doc.tables.map fun t =>
      { t with rows := t.rows.map fun r => { cells := r.cells.map (replaceCell reps) } } }

/-! Cell styling helpers (src/api.py lines 34-64). -/

/-- src/api.py set_cell_border: append one border element to tcBorders. -/
def setCellBorder (c : Cell) (side color : String) (sz : ℕ) : Cell :=
  { c with borders := c.borders ++ [(side, color, sz)] }

/-- src/api.py set_white_borders: white single borders on all four sides,
appended in the order top, bottom, left, right. -/
def setWhiteBorders (sz : ℕ) (c : Cell) : Cell :=
  setCellBorder (setCellBorder (setCellBorder (setCellBorder c "top" "FFFFFF" sz)
    "bottom" "FFFFFF" sz) "left" "FFFFFF" sz) "right" "FFFFFF" sz

/-- src/api.py set_cell_font: set font name, size and east-asian font on
every run of every paragraph of the cell (run color is untouched). -/
def setCellFont (fontName : String) (fontSize : ℕ) (c : Cell) : Cell :=
  { c with paragraphs := c.paragraphs.map fun p =>
      { p with runs := p.runs.map fun r =>
          { r with fontName := some fontName, fontSize := some fontSize,
                   eastAsiaFont := some fontName } } }

/-- src/api.py apply_cell_style: append a shading element, then white
borders of size 6, then the default Courier New 10pt font. -/
def applyCellStyle (c : Cell) : Cell :=
  setCellFont "Courier New" 10 (setWhiteBorders 6 { c with shadings := c.shadings ++ ["#ddefd5"] })

/-- White borders of size 6 on every cell of a row (the defensive first
pass of update_items_table). -/
def rowWhiteBorders6 (r : Row) : Row :=
  { cells := r.cells.map (setWhiteBorders 6) }

/-- Set the alignment of every paragraph of a cell. -/
def setCellAlignment (al : Align) (c : Cell) : Cell :=
  { c with paragraphs := c.paragraphs.map (fun p => { p with alignment := some al }) }

/-! The line items table (src/api.py lines 79-104). -/

/-- One line item of the request body. -/
structure Item where
  description : String
  unit_price : ℚ
  quantity : ℚ
  total : ℚ
deriving DecidableEq

/-- Python str() on an integer (no thousands grouping). -/
def intStr (i : ℤ) : String :=
  (if i < 0 then "-" else "") ++ String.mk (decimalDigits i.natAbs)

/-- Python str() on a non-integral number: modelled as the exact finite
decimal expansion (sign, integer digits, point, k fraction digits with k
minimal, searched up to 20 places; a "num/den" fallback keeps the function
total, unreachable for values with a short finite expansion). -/
def decimalRepr (q : ℚ) : String :=
  match (List.range 20).find? (fun j => 10 ^ (j + 1) % q.den = 0) with
  | some j =>
    let k := j + 1
    let n := q.num.natAbs * 10 ^ k / q.den
    (if q.num < 0 then "-" else "") ++ String.mk (decimalDigits (n / 10 ^ k)) ++ "." ++
      String.mk (List.replicate (k - (decimalDigits (n % 10 ^ k)).length) '0' ++
        decimalDigits (n % 10 ^ k))
  | none => (if q.num < 0 then "-" else "") ++ String.mk (decimalDigits q.num.natAbs) ++
      "/" ++ String.mk (decimalDigits q.den)

/-- The quantity cell text (src/api.py lines 91-95): str(int(quantity)) when
quantity == int(quantity) (iff the denominator is one, and then the
truncation is the numerator), str(quantity) otherwise. -/
def quantityText (q : ℚ) : String :=
  if q.den = 1 then intStr (q.num.tdiv (q.den : ℤ)) else decimalRepr q

example : quantityText (mkRat 2 1) = "2" := by decide
example : quantityText (mkRat 5 2) = "2.5" := by decide

/-- A freshly added table cell (add_row): one empty paragraph, no markup. -/
def freshCell : Cell := { paragraphs := [{ runs := [] }] }

/-- The fixed column-to-alignment list of update_items_table (lines 99-100). -/
def itemAlignments : List Align := [Align.left, Align.right, Align.center, Align.right]

/-- One cell of a generated item row: fresh cell, text assigned, styled by
apply_cell_style, then every paragraph aligned. -/
def mkItemCell (txt : String) (al : Align) : Cell :=
  setCellAlignment al (applyCellStyle (setCellText freshCell txt))

/-- One generated item row (body of the per-item loop, lines 87-102):
description, formatted unit price, quantity, formatted total, under the
fixed alignments left, right, center, right. -/
def mkItemRow (it : Item) : Row :=
  { cells := [ mkItemCell it.description Align.left,
               mkItemCell (format_currency it.unit_price) Align.right,
               mkItemCell (quantityText it.quantity) Align.center,
               mkItemCell (format_currency it.total) Align.right ] }

/-- src/api.py update_items_table (lines 79-104), on doc.tables[0]:
(1) white borders on every existing cell; (2) drop every row past index 1;
(3) capture the style-template row rows[1]; (4) append one styled row per
item (cells[0..3] and alignments[i] require exactly four grid columns, else
Python raises IndexError, modelled as none — as is a table with fewer than
two rows, where rows[1] raises); (5) remove the captured template row.
Python mutates doc in place and returns it; the model returns the new
document, none standing for a propagated exception. -/
def update_items_table (doc : Doc) (items : List Item) : Option Doc :=
  match doc.tables with
  | [] => none
  | t :: rest =>
    let rows1 := t.rows.map rowWhiteBorders6
    let rows2 := rows1.take 2
    match rows2 with
    | [r0, r1] =>
      if t.gridCols = 4 then
        some { doc with tables :=
          { t with rows := (r0 :: r1 :: items.map mkItemRow).eraseIdx 1 } :: rest }
      else none
    | _ => none

/-! The financial summary table (src/api.py lines 106-123). -/

/-- Replace the element at an index, leaving a too-short list unchanged
(callers guard the length, mirroring Python's IndexError separately). -/
def modifyAt (f : Cell → Cell) : ℕ → List Cell → List Cell
  | _, [] => []
  | 0, c :: l => f c :: l
  | n + 1, c :: l => c :: modifyAt f n l

/-- Right-align every paragraph of a cell (the second-column pass). -/
def alignRightCell (c : Cell) : Cell :=
  { c with paragraphs := c.paragraphs.map (fun p => { p with alignment := some Align.right }) }

/-- Per-row pass of style_financial_table (lines 108-113): white borders
(default size 4) and default font on every cell, then right-align the
paragraphs of row.cells[1] (IndexError — none — when the row has fewer
than two cells). -/
def styleFinRow (r : Row) : Option Row :=
  if 2 ≤ r.cells.length then
    some { cells := modifyAt alignRightCell 1 (r.cells.map (fun c => setCellFont "Courier New" 10 (setWhiteBorders 4 c))) }
  else none

/-- The row passes in order, failing when any row fails. -/
def styleFinRows : List Row → Option (List Row)
  | [] => some []
  | r :: rs =>
    match styleFinRow r, styleFinRows rs with
    | some r1, some rs1 => some (r1 :: rs1)
    | _, _ => none

/-- The recolored late-fee cell (lines 117-123): the original cell text is
captured, the cell text is cleared (one paragraph, one empty run), and a run
with the original text is appended with color d95132 and Courier New font.
tcPr markup survives; run font size is not set here. -/
def recolorLateFee (c : Cell) : Cell :=
  { c with paragraphs := [{ runs :=
      [ { text := "" },
        { text := cellText c, fontColor := some 0xd95132,
          fontName := some "Courier New", eastAsiaFont := some "Courier New" } ] }] }

/-- The default run color: none, i.e. inherited from the style (black). -/
def defaultRunColor : Option ℕ := none

/-- src/api.py style_financial_table (lines 106-123), on doc.tables[1]:
restyle every cell and right-align the second column; when apply_late_fee,
look at rows[3].cells[0] (IndexError — none — when absent) and, only if its
text contains "LATE FEE", rewrite that cell recolored.  Python mutates doc
in place; the model returns the new document. -/
def style_financial_table (doc : Doc) (apply_late_fee : Bool) : Option Doc :=
  match doc.tables with
  | t0 :: t1 :: ts =>
    match styleFinRows t1.rows with
    | none => none
    | some rows1 =>
      if apply_late_fee then
        match rows1[3]? with
        | none => none
        | some r3 =>
          match r3.cells[0]? with
          | none => none
          | some c0 =>
            if strContains (cellText c0) "LATE FEE" then
              some { doc with tables :=
                t0 :: { t1 with rows := rows1.set 3 { cells := r3.cells.set 0 (recolorLateFee c0) } } :: ts }
            else some { doc with tables := t0 :: { t1 with rows := rows1 } :: ts }
      else some { doc with tables := t0 :: { t1 with rows := rows1 } :: ts }
  | _ => none

/-! The replacement map built by generate_invoice (src/api.py lines 271-276).
Python dicts are modelled as association lists in insertion order; insertion
updates an existing key in place or appends a new one. -/

/-- Python dict assignment d[k] = v (and the {**a, **b} merge step). -/
def dictInsert (m : List (String × String)) (k v : String) : List (String × String) :=
  if m.any (fun kv => kv.1 == k) then
    m.map (fun kv => if kv.1 == k then (k, v) else kv)
  else m ++ [(k, v)]

/-- Python dict merge: fold the right dict into the left, later keys win. -/
def dictMerge (a b : List (String × String)) : List (String × String) :=
  b.foldl (fun m kv => dictInsert m kv.1 kv.2) a

/-- Python dict lookup d.get(k) (some value or none): the first pair whose
key equals k (insertion order; keys are unique in a Python dict). -/
def dictLookup (k : String) : List (String × String) → Option String
  | [] => none
  | kv :: rest => if kv.1 == k then some kv.2 else dictLookup k rest

/-- The literal template token '{{LATE FEE:}}' of generate_invoice. -/
def lateFeeTokenKey : String := "\x7b\x7bLATE FEE:\x7d\x7d"

/-- The literal template token '[latefee]' of generate_invoice. -/
def lateFeeBracketKey : String := "[latefee]"

/-- src/api.py generate_invoice, lines 271-276: replacements =
{**client_info, **invoice_details, **financials}; with apply_late_fee the
'{{LATE FEE:}}' token maps to 'LATE FEE', otherwise both '{{LATE FEE:}}'
and '[latefee]' map to the empty string. -/
def buildReplacements (client_info invoice_details financials : List (String × String))
    (apply_late_fee : Bool) : List (String × String) :=
  let base := dictMerge (dictMerge (dictMerge [] client_info) invoice_details) financials
  if apply_late_fee then dictInsert base lateFeeTokenKey "LATE FEE"
  else dictInsert (dictInsert base lateFeeTokenKey "") lateFeeBracketKey ""

/-! Remote images and the paid stamp / signature overlay
(src/api.py lines 20-22 and 125-234). -/

/-- The two remote asset URLs (src/api.py lines 21-22). -/
def PAID_STAMP_URL : String := "https://drive.google.com/uc?export=download&id=1W9PL0DtP0TUk7IcGiMD_ZuLddtQ8gjNo"

/-- See PAID_STAMP_URL. -/
def SIGNATURE_URL : String := "https://drive.google.com/uc?export=download&id=1b6Dcg4spQmvLUMd4neBtLNfdr5l7QtPJ"

/-- An HTTP response: status code and opaque body bytes (a token). -/
structure HttpResp where
  status : ℕ
  content : ℕ
deriving DecidableEq

/-- The external world of add_paid_stamp_and_signature: the network (none =
requests.get raised), PIL image verification, and whether the two
Image.save calls to the temp files succeed. -/
structure Env where
  get : String → Option HttpResp
  validImage : ℕ → Bool
  stampSaveOk : Bool := true
  sigSaveOk : Bool := true

/-- src/api.py fetch_image (lines 125-139): GET the url; non-200 status or
an undecodable body raises; every failure is wrapped as
"Error fetching image: ...". -/
def fetch_image (env : Env) (url : String) : Except String ℕ :=
  match env.get url with
  | none => Except.error "Error fetching image: connection error"
  | some resp =>
    if resp.status ≠ 200 then
      Except.error ("Error fetching image: Failed to fetch image. Status: " ++
        String.mk (decimalDigits resp.status))
    else if env.validImage resp.content then Except.ok resp.content
    else Except.error "Error fetching image: cannot identify image file"

/-- True exactly on Except.error. -/
def exceptFailed : Except String ℕ → Bool
  | Except.ok _ => false
  | Except.error _ => true

/-- EMU conversion: int(x * 914400) where x is x100 hundredths of an inch
(exact, since 914400 is divisible by 100: the source writes e.g.
5.09 * 914400). -/
def emuHundredths (x100 : ℤ) : ℤ := x100 * 914400 / 100

/-- The anchored stamp drawing (lines 160-189): 2.17 x 2.17 inches at page
offset (5.09, 6.64) inches, relativeHeight 251, docPr id 1. -/
def stampOverlay : Overlay :=
  { posH := emuHundredths 509, posV := emuHundredths 664,
    cx := emuHundredths 217, cy := emuHundredths 217,
    relativeHeight := 251, docPrId := 1, docPrName := "Picture 1" }

/-- The anchored signature drawing (lines 194-223): 1.92 x 1.92 inches at
page offset (5.64, 8.11) inches, relativeHeight 252, docPr id 2. -/
def signatureOverlay : Overlay :=
  { posH := emuHundredths 564, posV := emuHundredths 811,
    cx := emuHundredths 192, cy := emuHundredths 192,
    relativeHeight := 252, docPrId := 2, docPrName := "Picture 2" }

/-- doc.add_paragraph + add_run + add_picture + replacement of the inline
drawing by the anchored one: appends one paragraph holding one run whose
drawing is the anchored overlay. -/
def addOverlayParagraph (doc : Doc) (ov : Overlay) : Doc :=
  { doc with paragraphs := doc.paragraphs ++ [{ runs := [{ text := "", drawing := some ov }] }] }

/-- Does the document contain a run carrying the given anchored drawing? -/
def hasOverlay (doc : Doc) (ov : Overlay) : Bool :=
  doc.paragraphs.any fun p => p.runs.any fun r => r.drawing == some ov

/-- The fixed names of the two NamedTemporaryFile artifacts. -/
def stampTmpName : String := "stamp_tmp.png"

/-- See stampTmpName. -/
def sigTmpName : String := "signature_tmp.png"

/-- Result of add_paid_stamp_and_signature: the document state, the set of
files on disk, and the propagated exception message if any. -/
structure StampResult where
  doc : Doc
  files : List String
  err : Option String
deriving DecidableEq

/-- src/api.py add_paid_stamp_and_signature (lines 141-234).  Order of
effects in the try block: fetch stamp, fetch signature, create both temp
files, save the stamp image, save the signature image, append the anchored
stamp drawing, append the anchored signature drawing, delete both temp
files, return.  The except block deletes whichever temp files exist and
re-raises with the "Failed to add stamp and signature: " prefix.  Fallible
steps are the two fetches and the two saves (via env); the document is only
touched after them, and deleting a temp file cannot fail. -/
def add_paid_stamp_and_signature (env : Env) (doc : Doc) (files : List String) : StampResult :=
  match fetch_image env PAID_STAMP_URL with
  | Except.error e =>
    { doc := doc, files := files, err := some ("Failed to add stamp and signature: " ++ e) }
  | Except.ok _stamp =>
    match fetch_image env SIGNATURE_URL with
    | Except.error e =>
      { doc := doc, files := files, err := some ("Failed to add stamp and signature: " ++ e) }
    | Except.ok _sig =>
      let files1 := files ++ [stampTmpName, sigTmpName]
      match env.stampSaveOk, env.sigSaveOk with
      | false, _ =>
        { doc := doc, files := (files1.erase stampTmpName).erase sigTmpName,
          err := some "Failed to add stamp and signature: save failed" }
      | true, false =>
        { doc := doc, files := (files1.erase stampTmpName).erase sigTmpName,
          err := some "Failed to add stamp and signature: save failed" }
      | true, true =>
        { doc := addOverlayParagraph (addOverlayParagraph doc stampOverlay) signatureOverlay,
          files := (files1.erase stampTmpName).erase sigTmpName,
          err := none }

/-! Structure eta helper lemmas. -/

theorem rowEta (r : Row) : Row.mk r.cells = r := rfl

theorem tableEta (t : Table) : Table.mk t.rows t.gridCols = t := rfl

theorem docEta (d : Doc) : Doc.mk d.paragraphs d.tables = d := rfl

/-- C5: replace_placeholders applied with an empty replacement map leaves
the text of every paragraph and every table cell unchanged — in fact it
leaves the whole document unchanged, since with no replacement pairs no
guard ever fires and no text is rewritten. -/
theorem replace_placeholders_empty_map (doc : Doc) : replace_placeholders doc [] = doc := by
  have hp : replacePara [] = id := funext fun p => rfl
  have hc : replaceCell [] = id := funext fun c => rfl
  cases doc with
  | mk ps ts =>
    simp [replace_placeholders, hp, hc, rowEta, tableEta]

/-- The document and replacement chain witnessing sequential substitution:
a single paragraph reading "[A]" and the map [A] -> [B], [B] -> C. -/
def chainDoc : Doc := { paragraphs := [{ runs := [{ text := "[A]" }] }], tables := [] }

/-- See chainDoc. -/
def chainReps : List (String × String) := [("[A]", "[B]"), ("[B]", "C")]

/-- C10: placeholder substitution is sequential over the map's keys, not
simultaneous: on chainDoc, the value "[B]" substituted for the earlier key
"[A]" is itself rewritten to "C" by the later key "[B]" (a simultaneous
substitution would have produced "[B]"). -/
theorem replace_placeholders_sequential :
    (replace_placeholders chainDoc chainReps).paragraphs.map paraText = ["C"] ∧
    pyReplace (pyReplace "[A]" "[A]" "[B]") "[B]" "C" = "C" ∧
    ("C" : String) ≠ "[B]" := by decide

/-- A replacement pair whose key does not occur in a paragraph's current
text leaves that paragraph untouched, so a fold over all-unmatched pairs is
the identity. -/
theorem replacePara_no_match (reps : List (String × String)) (p : Paragraph)
    (h : ∀ kv ∈ reps, strContains (paraText p) kv.1 = false) :
    replacePara reps p = p := by
  induction reps with
  | nil => rfl
  | cons kv rest ih =>
    unfold replacePara at ih ⊢
    rw [List.foldl_cons]
    rw [if_neg (by simp [h kv (List.mem_cons_self kv rest)])]
    exact ih (fun kv1 h1 => h kv1 (List.mem_cons_of_mem kv h1))

/-- Cell version of replacePara_no_match. -/
theorem replaceCell_no_match (reps : List (String × String)) (c : Cell)
    (h : ∀ kv ∈ reps, strContains (cellText c) kv.1 = false) :
    replaceCell reps c = c := by
  induction reps with
  | nil => rfl
  | cons kv rest ih =>
    unfold replaceCell at ih ⊢
    rw [List.foldl_cons]
    rw [if_neg (by simp [h kv (List.mem_cons_self kv rest)])]
    exact ih (fun kv1 h1 => h kv1 (List.mem_cons_of_mem kv h1))

/-- C6: replace_placeholders raises no error when a token key matches no
text (the function is total and each unmatched key is a silent no-op): a
paragraph none of whose text matches any key is returned unchanged, a token
it contained survives as an unreplaced literal, and the same holds for a
table cell. -/
theorem replace_placeholders_unmatched_token (doc : Doc) (reps : List (String × String))
    (i : ℕ) (p : Paragraph) (hp : doc.paragraphs[i]? = some p)
    (hno : ∀ kv ∈ reps, strContains (paraText p) kv.1 = false)
    (ti ri ci : ℕ) (tb : Table) (tr : Row) (cl : Cell)
    (htb : doc.tables[ti]? = some tb) (htr : tb.rows[ri]? = some tr)
    (hcl : tr.cells[ci]? = some cl)
    (hnoc : ∀ kv ∈ reps, strContains (cellText cl) kv.1 = false)
    (tok : String) (htok : strContains (paraText p) tok = true) :
    (replace_placeholders doc reps).paragraphs[i]? = some p ∧
    (∃ q, (replace_placeholders doc reps).paragraphs[i]? = some q ∧
      strContains (paraText q) tok = true) ∧
    ∃ tb1 tr1, (replace_placeholders doc reps).tables[ti]? = some tb1 ∧
      tb1.rows[ri]? = some tr1 ∧ tr1.cells[ci]? = some cl := by
  have hpar : (replace_placeholders doc reps).paragraphs[i]? = some p := by
    simp only [replace_placeholders, List.getElem?_map, hp, Option.map_some']
    rw [replacePara_no_match reps p hno]
  refine ⟨hpar, ⟨p, hpar, htok⟩, ?_⟩
  refine ⟨{ tb with rows := tb.rows.map fun r => { cells := r.cells.map (replaceCell reps) } },
          { cells := tr.cells.map (replaceCell reps) }, ?_, ?_, ?_⟩
  · simp only [replace_placeholders, List.getElem?_map, htb, Option.map_some']
  · simp only [List.getElem?_map, htr, Option.map_some']
  · simp only [List.getElem?_map, hcl, Option.map_some']
    rw [replaceCell_no_match reps cl hnoc]

/-- A one-paragraph, one-table document used to instantiate the unmatched
token theorem. -/
def unmatchedDoc : Doc :=
  { paragraphs := [{ runs := [{ text := "pay [invoice_number] now" }] }],
    tables := [{ rows := [{ cells := [setCellText freshCell "cell [due_date]"] }], gridCols := 1 }] }

/-- Witness for replace_placeholders_unmatched_token at a concrete document,
replacement map, and token. -/
theorem replace_placeholders_unmatched_token_witness :
    (replace_placeholders unmatchedDoc [("[other]", "X")]).paragraphs[0]? =
      some { runs := [{ text := "pay [invoice_number] now" }] } ∧
    (∃ q, (replace_placeholders unmatchedDoc [("[other]", "X")]).paragraphs[0]? = some q ∧
      strContains (paraText q) "[invoice_number]" = true) ∧
    ∃ tb1 tr1, (replace_placeholders unmatchedDoc [("[other]", "X")]).tables[0]? = some tb1 ∧
      tb1.rows[0]? = some tr1 ∧ tr1.cells[0]? = some (setCellText freshCell "cell [due_date]") :=
  replace_placeholders_unmatched_token unmatchedDoc [("[other]", "X")] 0
    { runs := [{ text := "pay [invoice_number] now" }] } rfl (by decide)
    0 0 0 _ _ _ rfl rfl rfl (by decide) "[invoice_number]" (by decide)

/-! Currency formatting: C2. -/

/-- digitChar always yields a decimal digit, never a comma. -/
theorem digitChar_ne_comma (d : ℕ) : (digitChar d != ',') = true := by
  unfold digitChar
  split_ifs <;> decide

/-- Every character produced by decimalDigitsAux is a digit character. -/
theorem decimalDigitsAux_ne_comma :
    ∀ fuel n : ℕ, ∀ c ∈ decimalDigitsAux fuel n, (c != ',') = true := by
  intro fuel
  induction fuel with
  | zero =>
    intro n c hc
    simp [decimalDigitsAux] at hc
  | succ f ih =>
    intro n c hc
    unfold decimalDigitsAux at hc
    by_cases h : n = 0
    · simp [h] at hc
    · rw [if_neg h] at hc
      rcases List.mem_append.mp hc with h1 | h2
      · exact ih (n / 10) c h1
      · rw [List.mem_singleton.mp h2]
        exact digitChar_ne_comma (n % 10)

/-- Every character of a decimal digit string is a digit, never a comma. -/
theorem decimalDigits_ne_comma (n : ℕ) : ∀ c ∈ decimalDigits n, (c != ',') = true := by
  intro c hc
  unfold decimalDigits at hc
  by_cases h : n = 0
  · rw [if_pos h] at hc
    rw [List.mem_singleton.mp hc]
    decide
  · rw [if_neg h] at hc
    exact decimalDigitsAux_ne_comma (n + 1) n c hc

/-- groupRev only inserts commas: filtering commas out recovers the input
filtered the same way. -/
theorem filter_groupRev (l : List Char) :
    (groupRev l).filter (fun ch => ch != ',') = l.filter (fun ch => ch != ',') :=
  match l with
  | a :: b :: c :: d :: rest => by
    rw [groupRev]
    simp only [List.filter_cons]
    rw [show ((',' : Char) != ',') = false from rfl]
    simp only [Bool.false_eq_true, if_false]
    rw [filter_groupRev (d :: rest)]
    simp only [List.filter_cons]
  | [] => rfl
  | [_] => rfl
  | [_, _] => rfl
  | [_, _, _] => rfl

/-- Thousands grouping preserves the digits: stripping the commas from
commaGroup n gives back the plain decimal digit string of n. -/
theorem stripCommas_commaGroup (n : ℕ) :
    stripCommas (commaGroup n) = String.mk (decimalDigits n) := by
  unfold stripCommas commaGroup
  simp only [List.filter_reverse, filter_groupRev, List.reverse_reverse]
  rw [List.filter_eq_self.mpr (decimalDigits_ne_comma n)]

/-- C2: format_currency returns "" for zero, "Rp " with the
thousands-grouped integer form for whole amounts (1000 renders as
"Rp 1,000"), and "Rp " with the thousands-grouped two-decimal form
otherwise (1000.5 renders as "Rp 1,000.50"); grouping only inserts commas
(stripping them recovers the plain digits). -/
theorem format_currency_cases :
    format_currency (mkRat 0 1) = "" ∧
    format_currency (mkRat 1000 1) = "Rp 1,000" ∧
    format_currency (mkRat 2001 2) = "Rp 1,000.50" ∧
    (∀ a : ℚ, a = 0 → format_currency a = "") ∧
    (∀ a : ℚ, a ≠ 0 → a.den = 1 → format_currency a = "Rp " ++ intToComma a.num) ∧
    (∀ a : ℚ, a.den ≠ 1 → format_currency a = "Rp " ++ twoDecComma a) ∧
    (∀ n : ℕ, stripCommas (commaGroup n) = String.mk (decimalDigits n)) := by
  refine ⟨by decide, by decide, by decide, ?_, ?_, ?_, stripCommas_commaGroup⟩
  · intro a ha
    subst ha
    rfl
  · intro a ha hden
    have hnum : a.num ≠ 0 := by
      intro h
      exact ha (Rat.num_eq_zero.mp h)
    unfold format_currency
    rw [if_neg hnum, if_pos hden, hden]
    simp [Int.tdiv_one]
  · intro a hden
    have hnum : a.num ≠ 0 := by
      intro h
      have : a = 0 := Rat.num_eq_zero.mp h
      subst this
      exact hden rfl
    unfold format_currency
    rw [if_neg hnum, if_neg hden]

/-- Witness: the whole-amount branch of format_currency at 7. -/
theorem format_currency_cases_witness : format_currency (mkRat 7 1) = "Rp 7" := by
  have h := format_currency_cases.2.2.2.2.1 (mkRat 7 1) (by decide) (by decide)
  rw [h]
  decide

/-! The items table rebuild: C1 and C7. -/

/-- Characterization of update_items_table on a well-formed template: the
first table keeps only its white-bordered header row followed by one
generated row per item; the style-template row and every later sample row
are gone. -/
theorem update_items_table_spec (doc : Doc) (items : List Item) (t : Table)
    (rest : List Table) (r0 r1 : Row) (rs : List Row)
    (ht : doc.tables = t :: rest) (hr : t.rows = r0 :: r1 :: rs) (hc : t.gridCols = 4) :
    update_items_table doc items =
      some { doc with tables :=
        { t with rows := rowWhiteBorders6 r0 :: items.map mkItemRow } :: rest } := by
  obtain ⟨ps, ts⟩ := doc
  simp only at ht
  subst ht
  obtain ⟨trows, tcols⟩ := t
  simp only at hr hc
  subst hr
  subst hc
  simp [update_items_table, List.take, List.eraseIdx]

/-- C1: on a template whose first table has a header row, a style-template
row and possibly further sample rows, update_items_table yields a first
table of exactly one (header) row plus one data row per item, with the
style-template row and all sample rows removed. -/
theorem update_items_table_rebuild (doc : Doc) (items : List Item) (t : Table)
    (rest : List Table) (r0 r1 : Row) (rs : List Row)
    (ht : doc.tables = t :: rest) (hr : t.rows = r0 :: r1 :: rs) (hc : t.gridCols = 4) :
    update_items_table doc items =
      some { doc with tables :=
        { t with rows := rowWhiteBorders6 r0 :: items.map mkItemRow } :: rest } ∧
    (rowWhiteBorders6 r0 :: items.map mkItemRow).length = items.length + 1 :=
  ⟨update_items_table_spec doc items t rest r0 r1 rs ht hr hc, by simp⟩

/-- C7: every data row that update_items_table appends carries the fixed
column-to-alignment pattern left, right, center, right, independent of the
item (stated as: the alignment matrix of the rebuilt first table's data
rows is the constant pattern, one copy per item). -/
theorem update_items_table_fixed_alignments (doc : Doc) (items : List Item) (t : Table)
    (rest : List Table) (r0 r1 : Row) (rs : List Row)
    (ht : doc.tables = t :: rest) (hr : t.rows = r0 :: r1 :: rs) (hc : t.gridCols = 4) :
    (update_items_table doc items).map
      (fun d => (d.tables.take 1).map fun t1 => t1.rows.tail.map fun r =>
        r.cells.map fun c => c.paragraphs.map fun p => p.alignment) =
    some [items.map fun _ =>
      [[some Align.left], [some Align.right], [some Align.center], [some Align.right]]] := by
  rw [update_items_table_spec doc items t rest r0 r1 rs ht hr hc]
  simp only [Option.map_some', List.take, List.map_cons, List.map_nil, List.tail_cons,
    List.map_map]
  congr 2

/-- A four-column sample template: header row, empty style-template row. -/
def sampleHeaderRow : Row :=
  { cells := [setCellText freshCell "Description", setCellText freshCell "Unit Price",
              setCellText freshCell "Qty", setCellText freshCell "Total"] }

/-- See sampleHeaderRow. -/
def sampleStyleRow : Row := { cells := [freshCell, freshCell, freshCell, freshCell] }

/-- See sampleHeaderRow. -/
def sampleItemsTable : Table := { rows := [sampleHeaderRow, sampleStyleRow], gridCols := 4 }

/-- See sampleHeaderRow. -/
def sampleTemplateDoc : Doc := { paragraphs := [], tables := [sampleItemsTable] }

/-- The end-to-end example item of the spec. -/
def sampleItem : Item :=
  { description := "Design work", unit_price := mkRat 500000 1,
    quantity := mkRat 2 1, total := mkRat 1000000 1 }

/-- Witness for update_items_table_rebuild on the sample template and item. -/
theorem update_items_table_rebuild_witness :
    update_items_table sampleTemplateDoc [sampleItem] =
      some { sampleTemplateDoc with tables :=
        { sampleItemsTable with
          rows := rowWhiteBorders6 sampleHeaderRow :: [sampleItem].map mkItemRow } :: ([] : List Table) } ∧
    (rowWhiteBorders6 sampleHeaderRow :: [sampleItem].map mkItemRow).length = [sampleItem].length + 1 :=
  update_items_table_rebuild sampleTemplateDoc [sampleItem] sampleItemsTable []
    sampleHeaderRow sampleStyleRow [] rfl rfl rfl

/-- Witness for update_items_table_fixed_alignments on the sample template. -/
theorem update_items_table_fixed_alignments_witness :
    (update_items_table sampleTemplateDoc [sampleItem]).map
      (fun d => (d.tables.take 1).map fun t1 => t1.rows.tail.map fun r =>
        r.cells.map fun c => c.paragraphs.map fun p => p.alignment) =
    some [[sampleItem].map fun _ =>
      [[some Align.left], [some Align.right], [some Align.center], [some Align.right]]] :=
  update_items_table_fixed_alignments sampleTemplateDoc [sampleItem] sampleItemsTable []
    sampleHeaderRow sampleStyleRow [] rfl rfl rfl

/-- The one data row generated for the spec's end-to-end example reads
"Design work", "Rp 500,000", "2", "Rp 1,000,000". -/
theorem sampleItem_row_texts :
    (mkItemRow sampleItem).cells.map cellText =
      ["Design work", "Rp 500,000", "2", "Rp 1,000,000"] := by decide

/-! Dict model lemmas, used for the replacement map built by
generate_invoice. -/

/-- Lookup after an in-place update finds the new value (the key occurs). -/
theorem dictLookup_map_upd_self (m : List (String × String)) (k v : String)
    (h : m.any (fun kv => kv.1 == k) = true) :
    dictLookup k (m.map fun kv => if kv.1 == k then (k, v) else kv) = some v := by
  induction m with
  | nil => simp at h
  | cons kv rest ih =>
    simp only [List.any_cons, Bool.or_eq_true] at h
    by_cases hk : (kv.1 == k) = true
    · have hkv : kv.1 = k := by simpa using hk
      simp [dictLookup, hkv]
    · simp only [List.map_cons, if_neg hk, dictLookup]
      exact ih (h.resolve_left hk)

/-- Lookup in m ++ [(k, v)] finds v when no key of m matches k. -/
theorem dictLookup_append_self (m : List (String × String)) (k v : String)
    (h : m.any (fun kv => kv.1 == k) = false) :
    dictLookup k (m ++ [(k, v)]) = some v := by
  induction m with
  | nil => simp [dictLookup]
  | cons kv rest ih =>
    simp only [List.any_cons, Bool.or_eq_false_iff] at h
    simp only [List.cons_append, dictLookup]
    rw [if_neg (by simp [h.1])]
    exact ih h.2

/-- Python dict: after d[k] = v, d.get(k) is v. -/
theorem dictLookup_dictInsert_self (m : List (String × String)) (k v : String) :
    dictLookup k (dictInsert m k v) = some v := by
  unfold dictInsert
  by_cases h : m.any (fun kv => kv.1 == k) = true
  · rw [if_pos h]
    exact dictLookup_map_upd_self m k v h
  · rw [if_neg h]
    exact dictLookup_append_self m k v (Bool.eq_false_iff.mpr h)

/-- An in-place update of key k1 does not change lookups of another key. -/
theorem dictLookup_map_upd_ne (m : List (String × String)) (k k1 v : String)
    (hne : k ≠ k1) :
    dictLookup k (m.map fun kv => if kv.1 == k1 then (k1, v) else kv) = dictLookup k m := by
  induction m with
  | nil => rfl
  | cons kv rest ih =>
    simp only [List.map_cons]
    by_cases hk1 : (kv.1 == k1) = true
    · have hkv : kv.1 = k1 := by simpa using hk1
      rw [if_pos hk1]
      simp only [dictLookup]
      rw [if_neg (by simp [Ne.symm hne]), if_neg (by simp [hkv, Ne.symm hne])]
      exact ih
    · rw [if_neg hk1]
      by_cases hk : (kv.1 == k) = true
      · simp only [dictLookup]
        rw [if_pos hk, if_pos hk]
      · simp only [dictLookup]
        rw [if_neg (by simpa using hk), if_neg (by simpa using hk)]
        exact ih

/-- Appending a pair with a different key does not change lookups. -/
theorem dictLookup_append_ne (m : List (String × String)) (k k1 v : String)
    (hne : k ≠ k1) :
    dictLookup k (m ++ [(k1, v)]) = dictLookup k m := by
  induction m with
  | nil =>
    simp only [List.nil_append, dictLookup]
    rw [if_neg (by simp [Ne.symm hne])]
  | cons kv rest ih =>
    simp only [List.cons_append, dictLookup]
    by_cases hk : (kv.1 == k) = true
    · rw [if_pos hk, if_pos hk]
    · rw [if_neg (by simpa using hk), if_neg (by simpa using hk)]
      exact ih

/-- Python dict: d[k1] = v does not change d.get(k) for k different from k1. -/
theorem dictLookup_dictInsert_ne (m : List (String × String)) (k k1 v : String)
    (hne : k ≠ k1) :
    dictLookup k (dictInsert m k1 v) = dictLookup k m := by
  unfold dictInsert
  by_cases h : m.any (fun kv => kv.1 == k1) = true
  · rw [if_pos h]
    exact dictLookup_map_upd_ne m k k1 v hne
  · rw [if_neg h]
    exact dictLookup_append_ne m k k1 v hne

/-- Every key of dictInsert m k v is k or a key of m. -/
theorem mem_dictInsert_keys (m : List (String × String)) (k v : String)
    (a : String × String) (h : a ∈ dictInsert m k v) :
    a.1 = k ∨ ∃ b ∈ m, a.1 = b.1 := by
  unfold dictInsert at h
  by_cases hb : m.any (fun kv => kv.1 == k) = true
  · rw [if_pos hb] at h
    obtain ⟨b, hbm, hab⟩ := List.mem_map.mp h
    by_cases hk : (b.1 == k) = true
    · left
      rw [← hab, if_pos hk]
    · right
      exact ⟨b, hbm, by rw [← hab, if_neg hk]⟩
  · rw [if_neg hb] at h
    rcases List.mem_append.mp h with h1 | h2
    · right
      exact ⟨a, h1, rfl⟩
    · left
      rw [List.mem_singleton.mp h2]

/-- Every key of a dict merge is a key of one of the two sides. -/
theorem mem_dictMerge_keys (b a : List (String × String)) (x : String × String)
    (h : x ∈ dictMerge a b) : (∃ y ∈ a, x.1 = y.1) ∨ ∃ y ∈ b, x.1 = y.1 := by
  induction b generalizing a with
  | nil => exact Or.inl ⟨x, h, rfl⟩
  | cons kv rest ih =>
    rcases ih (dictInsert a kv.1 kv.2) h with h1 | h2
    · obtain ⟨y, hy, hxy⟩ := h1
      rcases mem_dictInsert_keys a kv.1 kv.2 y hy with hk | ⟨z, hz, hyz⟩
      · exact Or.inr ⟨kv, List.mem_cons_self kv rest, by rw [hxy, hk]⟩
      · exact Or.inl ⟨z, hz, by rw [hxy, hyz]⟩
    · obtain ⟨y, hy, hxy⟩ := h2
      exact Or.inr ⟨y, List.mem_cons_of_mem kv hy, hxy⟩

/-- Lookup is none when no key matches. -/
theorem dictLookup_eq_none (m : List (String × String)) (k : String)
    (h : ∀ kv ∈ m, kv.1 ≠ k) : dictLookup k m = none := by
  induction m with
  | nil => rfl
  | cons kv rest ih =>
    simp only [dictLookup]
    rw [if_neg (by simp [h kv (List.mem_cons_self kv rest)])]
    exact ih (fun kv1 h1 => h kv1 (List.mem_cons_of_mem kv h1))

/-! The financial table: C4. -/

/-- The run colors of a cell, paragraph by paragraph. -/
def cellColors (c : Cell) : List (List (Option ℕ)) :=
  c.paragraphs.map fun p => p.runs.map fun r => r.fontColor

/-- The run colors of a row, cell by cell. -/
def rowColors (r : Row) : List (List (List (Option ℕ))) := r.cells.map cellColors

/-- Border markup does not touch run colors. -/
theorem cellColors_setWhiteBorders (sz : ℕ) (c : Cell) :
    cellColors (setWhiteBorders sz c) = cellColors c := rfl

/-- set_cell_font sets name and size but never color. -/
theorem cellColors_setCellFont (n : String) (s : ℕ) (c : Cell) :
    cellColors (setCellFont n s c) = cellColors c := by
  unfold cellColors setCellFont
  simp [List.map_map, Function.comp]

/-- Alignment does not touch run colors. -/
theorem cellColors_alignRightCell (c : Cell) :
    cellColors (alignRightCell c) = cellColors c := by
  unfold cellColors alignRightCell
  simp [List.map_map, Function.comp]

/-- The full per-cell pass of style_financial_table preserves run colors. -/
theorem cellColors_finPass (c : Cell) :
    cellColors (setCellFont "Courier New" 10 (setWhiteBorders 4 c)) = cellColors c := by
  rw [cellColors_setCellFont, cellColors_setWhiteBorders]

/-- Right-aligning one cell in a list preserves all the colors. -/
theorem map_cellColors_modifyAt (l : List Cell) (n : ℕ) :
    (modifyAt alignRightCell n l).map cellColors = l.map cellColors := by
  induction l generalizing n with
  | nil => cases n <;> rfl
  | cons c cs ih =>
    cases n with
    | zero => simp [modifyAt, cellColors_alignRightCell]
    | succ m => simp [modifyAt, ih m]

/-- One styled row keeps its run colors. -/
theorem styleFinRow_colors (r r1 : Row) (h : styleFinRow r = some r1) :
    rowColors r1 = rowColors r := by
  unfold styleFinRow at h
  by_cases hl : 2 ≤ r.cells.length
  · rw [if_pos hl] at h
    injection h with h
    subst h
    unfold rowColors
    rw [map_cellColors_modifyAt]
    simp only [List.map_map]
    congr 1
    funext c
    exact cellColors_finPass c
  · rw [if_neg hl] at h
    exact absurd h (by simp)

/-- The styled financial table keeps all its run colors. -/
theorem styleFinRows_colors : ∀ rows rows1 : List Row, styleFinRows rows = some rows1 →
    rows1.map rowColors = rows.map rowColors := by
  intro rows
  induction rows with
  | nil =>
    intro rows1 h
    simp only [styleFinRows] at h
    injection h with h
    subst h
    rfl
  | cons r rs ih =>
    intro rows1 h
    simp only [styleFinRows] at h
    cases h1 : styleFinRow r with
    | none => rw [h1] at h; exact absurd h (by simp)
    | some r1 =>
      cases h2 : styleFinRows rs with
      | none => rw [h1, h2] at h; exact absurd h (by simp)
      | some rs1 =>
        rw [h1, h2] at h
        injection h with h
        subst h
        simp only [List.map_cons]
        rw [styleFinRow_colors r r1 h1, ih rs1 h2]

/-- C4: with apply_late_fee false the '{{LATE FEE:}}' and '[latefee]'
tokens of the replacement map resolve to the empty string and
style_financial_table leaves every run color (in particular the late-fee
row's) unchanged; with apply_late_fee true and the marker "LATE FEE"
present in rows[3].cells[0], that cell is rewritten as a run colored
d95132 — different from the default (inherited) run color — with the
Courier New font family and the original text kept; with the marker absent
the recoloring is silently skipped and no error is raised (the result is
still some document, styled but not recolored). -/
theorem style_financial_table_late_fee_behavior
    (ci ivd fin : List (String × String)) (doc : Doc) (t0 t1 : Table) (ts : List Table)
    (rows1 : List Row) (r3 : Row) (c0 : Cell)
    (ht : doc.tables = t0 :: t1 :: ts)
    (hrows : styleFinRows t1.rows = some rows1)
    (hr3 : rows1[3]? = some r3) (hc0 : r3.cells[0]? = some c0) :
    (dictLookup lateFeeTokenKey (buildReplacements ci ivd fin false) = some "" ∧
     dictLookup lateFeeBracketKey (buildReplacements ci ivd fin false) = some "" ∧
     style_financial_table doc false =
       some { doc with tables := t0 :: { t1 with rows := rows1 } :: ts } ∧
     rows1.map rowColors = t1.rows.map rowColors) ∧
    (strContains (cellText c0) "LATE FEE" = true →
      style_financial_table doc true = some { doc with tables :=
        t0 :: { t1 with rows := rows1.set 3 { cells := r3.cells.set 0 (recolorLateFee c0) } } :: ts } ∧
      (recolorLateFee c0).paragraphs.map (fun p => p.runs.map fun r => (r.text, r.fontColor, r.fontName)) =
        [[("", none, none), (cellText c0, some 0xd95132, some "Courier New")]] ∧
      (some 0xd95132 : Option ℕ) ≠ defaultRunColor ∧
      cellText (recolorLateFee c0) = cellText c0) ∧
    (strContains (cellText c0) "LATE FEE" = false →
      style_financial_table doc true =
        some { doc with tables := t0 :: { t1 with rows := rows1 } :: ts }) := by
  refine ⟨⟨?_, ?_, ?_, styleFinRows_colors t1.rows rows1 hrows⟩, ?_, ?_⟩
  · unfold buildReplacements
    simp only [Bool.false_eq_true, if_false]
    rw [dictLookup_dictInsert_ne _ lateFeeTokenKey lateFeeBracketKey "" (by decide),
        dictLookup_dictInsert_self]
  · unfold buildReplacements
    simp only [Bool.false_eq_true, if_false]
    rw [dictLookup_dictInsert_self]
  · simp only [style_financial_table, ht, hrows, Bool.false_eq_true, if_false]
  · intro hmark
    refine ⟨?_, rfl, by decide, ?_⟩
    · simp only [style_financial_table, ht, hrows, hr3, hc0, hmark, eq_self_iff_true, if_true]
    · rfl
  · intro hmark
    simp only [style_financial_table, ht, hrows, hr3, hc0, hmark, eq_self_iff_true, if_true,
      Bool.false_eq_true, if_false]

/-- A two-column financial summary table with the late-fee marker in row 3,
and a document holding it as tables[1]. -/
def finRow : Row :=
  { cells := [setCellText freshCell "Subtotal", setCellText freshCell "Rp 100"] }

/-- See finRow. -/
def finLateRow : Row :=
  { cells := [setCellText freshCell "LATE FEE: 2%", setCellText freshCell "Rp 5"] }

/-- See finRow. -/
def finTable : Table := { rows := [finRow, finRow, finRow, finLateRow], gridCols := 2 }

/-- See finRow. -/
def finDoc : Doc := { paragraphs := [], tables := [sampleItemsTable, finTable] }

/-- The styled rows of finTable (computed). -/
def finRows1 : List Row := (styleFinRows finTable.rows).getD []

/-- Row 3 of the styled rows (computed). -/
def finR3 : Row := finRows1[3]?.getD { cells := [] }

/-- The late-fee cell of the styled rows (computed). -/
def finC0 : Cell := finR3.cells[0]?.getD freshCell

/-- Witness for style_financial_table_late_fee_behavior on finDoc. -/
theorem style_financial_table_late_fee_behavior_witness :
    dictLookup lateFeeTokenKey (buildReplacements [] [] [] false) = some "" ∧
    style_financial_table finDoc false =
      some { finDoc with tables := sampleItemsTable :: { finTable with rows := finRows1 } :: ([] : List Table) } ∧
    style_financial_table finDoc true = some { finDoc with tables :=
      sampleItemsTable ::
        { finTable with rows := finRows1.set 3 { cells := finR3.cells.set 0 (recolorLateFee finC0) } } :: ([] : List Table) } := by
  have h := style_financial_table_late_fee_behavior [] [] [] finDoc sampleItemsTable finTable []
    finRows1 finR3 finC0 rfl rfl rfl rfl
  exact ⟨h.1.1, h.1.2.2.1, (h.2.1 (by decide)).1⟩

/-- C9: with apply_late_fee true the replacement map binds '{{LATE FEE:}}'
to 'LATE FEE' but, unless a caller-supplied map contains it, has no
'[latefee]' entry, so that token survives substitution as a literal; with
apply_late_fee false both tokens are bound to the empty string. -/
theorem generate_invoice_late_fee_map
    (ci ivd fin : List (String × String))
    (h : ∀ kv ∈ ci ++ ivd ++ fin, kv.1 ≠ lateFeeBracketKey) :
    dictLookup lateFeeTokenKey (buildReplacements ci ivd fin true) = some "LATE FEE" ∧
    (∀ kv ∈ buildReplacements ci ivd fin true, kv.1 ≠ lateFeeBracketKey) ∧
    dictLookup lateFeeBracketKey (buildReplacements ci ivd fin true) = none ∧
    dictLookup lateFeeTokenKey (buildReplacements ci ivd fin false) = some "" ∧
    dictLookup lateFeeBracketKey (buildReplacements ci ivd fin false) = some "" ∧
    (replace_placeholders { paragraphs := [{ runs := [{ text := lateFeeBracketKey }] }], tables := [] }
        (buildReplacements [] [] [] true)).paragraphs.map paraText = [lateFeeBracketKey] := by
  have hkeys : ∀ kv ∈ buildReplacements ci ivd fin true, kv.1 ≠ lateFeeBracketKey := by
    intro kv hkv
    unfold buildReplacements at hkv
    simp only [eq_self_iff_true, if_true] at hkv
    rcases mem_dictInsert_keys _ _ _ kv hkv with hk | ⟨b, hb, hkb⟩
    · rw [hk]
      decide
    · rcases mem_dictMerge_keys fin _ b hb with ⟨y, hy, hby⟩ | ⟨y, hy, hby⟩
      · rcases mem_dictMerge_keys ivd _ y hy with ⟨z, hz, hyz⟩ | ⟨z, hz, hyz⟩
        · rcases mem_dictMerge_keys ci [] z hz with ⟨w, hw, _⟩ | ⟨w, hw, hzw⟩
          · exact absurd hw (List.not_mem_nil w)
          · rw [hkb, hby, hyz, hzw]
            exact h w (by simp [hw])
        · rw [hkb, hby, hyz]
          exact h z (by simp [hz])
      · rw [hkb, hby]
        exact h y (by simp [hy])
  refine ⟨?_, hkeys, dictLookup_eq_none _ _ hkeys, ?_, ?_, by decide⟩
  · unfold buildReplacements
    simp only [eq_self_iff_true, if_true]
    exact dictLookup_dictInsert_self _ _ _
  · unfold buildReplacements
    simp only [Bool.false_eq_true, if_false]
    rw [dictLookup_dictInsert_ne _ lateFeeTokenKey lateFeeBracketKey "" (by decide)]
    exact dictLookup_dictInsert_self _ _ _
  · unfold buildReplacements
    simp only [Bool.false_eq_true, if_false]
    exact dictLookup_dictInsert_self _ _ _

/-- Witness for generate_invoice_late_fee_map with empty caller maps. -/
theorem generate_invoice_late_fee_map_witness :
    dictLookup lateFeeTokenKey (buildReplacements [] [] [] true) = some "LATE FEE" ∧
    dictLookup lateFeeBracketKey (buildReplacements [] [] [] true) = none ∧
    dictLookup lateFeeBracketKey (buildReplacements [] [] [] false) = some "" := by
  have h := generate_invoice_late_fee_map [] [] [] (by simp)
  exact ⟨h.1, h.2.2.1, h.2.2.2.2.1⟩

/-! The overlay compositor: C3 and C8. -/

/-- Appending an anchored drawing makes it present; other drawings are
unaffected. -/
theorem hasOverlay_addOverlayParagraph (d : Doc) (ov1 ov : Overlay) :
    hasOverlay (addOverlayParagraph d ov1) ov = (hasOverlay d ov || ov1 == ov) := by
  simp [hasOverlay, addOverlayParagraph, List.any_append]

/-- C3: overlay compositing is all-or-nothing.  Whenever
add_paid_stamp_and_signature propagates an error the document is unchanged;
the final document carries the stamp overlay exactly when it carries the
signature overlay (so a state with exactly one of the two embedded never
results); and if either remote fetch fails the call errors with the
document untouched. -/
theorem add_paid_stamp_and_signature_all_or_nothing (env : Env) (doc : Doc)
    (files : List String)
    (h1 : hasOverlay doc stampOverlay = false)
    (h2 : hasOverlay doc signatureOverlay = false) :
    ((add_paid_stamp_and_signature env doc files).err ≠ none →
      (add_paid_stamp_and_signature env doc files).doc = doc) ∧
    hasOverlay (add_paid_stamp_and_signature env doc files).doc stampOverlay =
      hasOverlay (add_paid_stamp_and_signature env doc files).doc signatureOverlay ∧
    (exceptFailed (fetch_image env PAID_STAMP_URL) = true ∨
        exceptFailed (fetch_image env SIGNATURE_URL) = true →
      (add_paid_stamp_and_signature env doc files).err ≠ none ∧
      (add_paid_stamp_and_signature env doc files).doc = doc) := by
  unfold add_paid_stamp_and_signature
  cases hs : fetch_image env PAID_STAMP_URL with
  | error e => exact ⟨fun _ => rfl, by rw [h1, h2], fun _ => ⟨by simp, rfl⟩⟩
  | ok stamp =>
    cases hg : fetch_image env SIGNATURE_URL with
    | error e => exact ⟨fun _ => rfl, by rw [h1, h2], fun _ => ⟨by simp, rfl⟩⟩
    | ok sig =>
      have hfetch : ¬(exceptFailed (Except.ok stamp) = true ∨
          exceptFailed (Except.ok sig) = true) := by
        simp [exceptFailed]
      cases hsave1 : env.stampSaveOk with
      | false =>
        exact ⟨fun _ => rfl, by rw [h1, h2], fun hf => absurd hf hfetch⟩
      | true =>
        cases hsave2 : env.sigSaveOk with
        | false =>
          exact ⟨fun _ => rfl, by rw [h1, h2], fun hf => absurd hf hfetch⟩
        | true =>
          refine ⟨fun hne => absurd rfl hne, ?_, fun hf => absurd hf hfetch⟩
          rw [hasOverlay_addOverlayParagraph, hasOverlay_addOverlayParagraph,
              hasOverlay_addOverlayParagraph, hasOverlay_addOverlayParagraph, h1, h2]
          decide

/-- An environment whose network always fails, and an empty document. -/
def failEnv : Env := { get := fun _ => none, validImage := fun _ => true }

/-- See failEnv. -/
def emptyDoc : Doc := { paragraphs := [], tables := [] }

/-- Witness: with an unreachable network the stamping call errors and the
document is left without either overlay. -/
theorem add_paid_stamp_and_signature_all_or_nothing_witness :
    (add_paid_stamp_and_signature failEnv emptyDoc []).err ≠ none ∧
    (add_paid_stamp_and_signature failEnv emptyDoc []).doc = emptyDoc :=
  (add_paid_stamp_and_signature_all_or_nothing failEnv emptyDoc [] rfl rfl).2.2
    (Or.inl rfl)

/-- C8: add_paid_stamp_and_signature deletes its temporary decoded-image
files on every exit path: whatever the fetch and save outcomes, the file
set after the call equals the file set before it (for fresh temp names). -/
theorem add_paid_stamp_and_signature_temp_cleanup (env : Env) (doc : Doc)
    (files : List String)
    (h1 : stampTmpName ∉ files) (h2 : sigTmpName ∉ files) :
    (add_paid_stamp_and_signature env doc files).files = files := by
  have herase : ((files ++ [stampTmpName, sigTmpName]).erase stampTmpName).erase sigTmpName
      = files := by
    rw [List.erase_append_right _ h1]
    rw [show ([stampTmpName, sigTmpName].erase stampTmpName) = [sigTmpName] by decide]
    rw [List.erase_append_right _ h2]
    simp
  unfold add_paid_stamp_and_signature
  cases hs : fetch_image env PAID_STAMP_URL with
  | error e => rfl
  | ok stamp =>
    cases hg : fetch_image env SIGNATURE_URL with
    | error e => rfl
    | ok sig =>
      cases hsave1 : env.stampSaveOk with
      | false => exact herase
      | true =>
        cases hsave2 : env.sigSaveOk with
        | false => exact herase
        | true => exact herase

/-- An environment where everything succeeds. -/
def okEnv : Env := { get := fun _ => some { status := 200, content := 0 }, validImage := fun _ => true }

/-- Witness: on the success path both temp files are removed again. -/
theorem add_paid_stamp_and_signature_temp_cleanup_witness :
    (add_paid_stamp_and_signature okEnv emptyDoc []).files = [] :=
  add_paid_stamp_and_signature_temp_cleanup okEnv emptyDoc []
    (List.not_mem_nil stampTmpName) (List.not_mem_nil sigTmpName)

end Api
